import Mathlib

set_option maxRecDepth 8192

namespace NetUtils

/-! # Port classifier (network/port.go)

Shallow embedding of the repository's port-validation model.
Go's `port` is `uint64`; we model port values as `Nat` (the 64-bit bound is
enforced explicitly where the source enforces it, in string parsing).
Go's `*portTypeRange` (a possibly-nil pointer) is modelled as
`Option portTypeRange`. -/

inductive portType where
  | System
  | Registered
  | Dynamic
  deriving DecidableEq, Repr

/-- Numeric rank of a tier, mirroring the Go `iota` values
`System=0, Registered=1, Dynamic=2`. -/
def portType.toNat : portType → Nat
  | .System => 0
  | .Registered => 1
  | .Dynamic => 2

structure portTypeRange where
  min : portType
  max : portType
  deriving DecidableEq, Repr

def rangeOf (min max : portType) : portTypeRange := ⟨min, max⟩

def rangeOfSame (pt : portType) : portTypeRange := rangeOf pt pt

def All : portTypeRange := rangeOf .System .Dynamic

def NonSystem : portTypeRange := rangeOf .Registered .Dynamic

def NonDynamic : portTypeRange := rangeOf .System .Registered

/-- Go const block boundary values (`MinSystem`..`Invalid`). -/
def MinSystem : Nat := 0

def MaxSystem : Nat := 1023

def MinRegistered : Nat := 1024

def MaxRegistered : Nat := 49151

def MinDynamic : Nat := 49152

def MaxDynamic : Nat := 65535

def Invalid : Nat := 65536

structure portRange where
  min : Nat
  max : Nat
  deriving DecidableEq, Repr

/-- The static tier-to-interval table `ranges` of network/port.go. -/
def ranges : portType → portRange
  | .System => ⟨MinSystem, MaxSystem⟩
  | .Registered => ⟨MinRegistered, MaxRegistered⟩
  | .Dynamic => ⟨MinDynamic, MaxDynamic⟩

/-- Go `func (p port) IsSet() bool { return p < Invalid }` -/
def IsSet (p : Nat) : Bool := p < Invalid

/-- Go `func (p port) IsValidForTypeRange(ptr *portTypeRange) bool`:
`ptr != nil && p >= ranges[ptr.min].min && p <= ranges[ptr.max].max`. -/
def IsValidForTypeRange (p : Nat) (ptr : Option portTypeRange) : Bool :=
  match ptr with
  | none => false
  | some r => decide ((ranges r.min).min ≤ p) && decide (p ≤ (ranges r.max).max)

/-- Go `func (p port) IsValidForType(pt portType) bool` -/
def IsValidForType (p : Nat) (pt : portType) : Bool :=
  IsValidForTypeRange p (some (rangeOfSame pt))

/-- Go `func (p port) IsValid() bool` -/
def IsValid (p : Nat) : Bool := IsValidForTypeRange p (some All)

/-- Go `func (p port) Uint64() uint64` -/
def Uint64 (p : Nat) : Nat := p

/-! Specification-side definition for claim C2: membership of `p` in the
union of the per-tier intervals of all tiers lying between `r.min` and
`r.max` inclusive (in the tier order). -/

def tiersBetween (r : portTypeRange) : List portType :=
  [portType.System, portType.Registered, portType.Dynamic].filter
    (fun t => decide (r.min.toNat ≤ t.toNat) && decide (t.toNat ≤ r.max.toNat))

def memTierUnion (p : Nat) (ptr : Option portTypeRange) : Bool :=
  match ptr with
  | none => false
  | some r =>
    (tiersBetween r).any (fun t => decide ((ranges t).min ≤ p) && decide (p ≤ (ranges t).max))

/-- C2: the O(1) two-boundary check of `IsValidForTypeRange` coincides with
membership in the union of the per-tier intervals of the tiers between
`min` and `max` inclusive, for every 64-bit port value and every range
(including the nil range, where both sides are false). -/
theorem isValidForTypeRange_eq_memTierUnion (p : Nat) (ptr : Option portTypeRange)
    (h : p < 2 ^ 64) :
    IsValidForTypeRange p ptr = memTierUnion p ptr := by
  match ptr with
  | none => rfl
  | some r =>
    rcases r with ⟨rmin, rmax⟩
    rw [Bool.eq_iff_iff]
    cases rmin <;> cases rmax <;>
      simp [IsValidForTypeRange, memTierUnion, tiersBetween, ranges, portType.toNat,
        MinSystem, MaxSystem, MinRegistered, MaxRegistered, MinDynamic, MaxDynamic] <;>
      omega

/-- Witness for C2 at the concrete input p = 80, range NonSystem. -/
theorem isValidForTypeRange_eq_memTierUnion_witness :
    (80 : Nat) < 2 ^ 64 ∧
      IsValidForTypeRange 80 (some NonSystem) = memTierUnion 80 (some NonSystem) :=
  ⟨by decide, isValidForTypeRange_eq_memTierUnion 80 (some NonSystem) (by decide)⟩

/-- C4: each port value in [0,1023] is valid exactly for the System tier,
each value in [1024,49151] exactly for Registered, and each value in
[49152,65535] exactly for Dynamic; hence each boundary value classifies
into the tier owning it and into no adjacent tier. -/
theorem isValidForType_tier_boundaries (p : Nat) :
    (p ≤ 1023 →
      IsValidForType p .System = true ∧ IsValidForType p .Registered = false ∧
        IsValidForType p .Dynamic = false) ∧
    (1024 ≤ p → p ≤ 49151 →
      IsValidForType p .Registered = true ∧ IsValidForType p .System = false ∧
        IsValidForType p .Dynamic = false) ∧
    (49152 ≤ p → p ≤ 65535 →
      IsValidForType p .Dynamic = true ∧ IsValidForType p .System = false ∧
        IsValidForType p .Registered = false) := by
  simp [IsValidForType, IsValidForTypeRange, rangeOfSame, rangeOf, ranges,
    MinSystem, MaxSystem, MinRegistered, MaxRegistered, MinDynamic, MaxDynamic]
  omega

/-- Witness for C4 at the five boundary values 1023, 1024, 49151, 49152, 65535. -/
theorem isValidForType_tier_boundaries_witness :
    (IsValidForType 1023 .System = true ∧ IsValidForType 1023 .Registered = false ∧
      IsValidForType 1023 .Dynamic = false) ∧
    (IsValidForType 1024 .Registered = true ∧ IsValidForType 1024 .System = false ∧
      IsValidForType 1024 .Dynamic = false) ∧
    (IsValidForType 49151 .Registered = true ∧ IsValidForType 49151 .System = false ∧
      IsValidForType 49151 .Dynamic = false) ∧
    (IsValidForType 49152 .Dynamic = true ∧ IsValidForType 49152 .System = false ∧
      IsValidForType 49152 .Registered = false) ∧
    (IsValidForType 65535 .Dynamic = true ∧ IsValidForType 65535 .System = false ∧
      IsValidForType 65535 .Registered = false) :=
  ⟨(isValidForType_tier_boundaries 1023).1 (by decide),
    (isValidForType_tier_boundaries 1024).2.1 (by decide) (by decide),
    (isValidForType_tier_boundaries 49151).2.1 (by decide) (by decide),
    (isValidForType_tier_boundaries 49152).2.2 (by decide) (by decide),
    (isValidForType_tier_boundaries 65535).2.2 (by decide) (by decide)⟩

/-! # Address parsing (network/address.go)

Strings are modelled as `List Char`.  `splitOnColon` embeds Go's
`strings.Split(s, ":")` (split on every occurrence of the one-character
separator), `joinColon` embeds `strings.Join(elems, ":")`. -/

def splitOnColon : List Char → List (List Char)
  | [] => [[]]
  | c :: cs =>
    if c = ':' then [] :: splitOnColon cs
    else
      match splitOnColon cs with
      | [] => [[c]]
      | h :: t => (c :: h) :: t

def joinColon : List (List Char) → List Char
  | [] => []
  | [x] => x
  | x :: y :: rest => x ++ ':' :: joinColon (y :: rest)

theorem splitOnColon_ne_nil (s : List Char) : splitOnColon s ≠ [] := by
  induction s with
  | nil => simp [splitOnColon]
  | cons c cs ih =>
    simp only [splitOnColon]
    split
    · simp
    · split
      · simp
      · simp

theorem joinColon_cons_cons (c : Char) (h : List Char) (t : List (List Char)) :
    joinColon ((c :: h) :: t) = c :: joinColon (h :: t) := by
  cases t <;> simp [joinColon]

/-- Splitting on colons and rejoining with colons restores the string. -/
theorem joinColon_splitOnColon (s : List Char) : joinColon (splitOnColon s) = s := by
  induction s with
  | nil => simp [splitOnColon, joinColon]
  | cons c cs ih =>
    obtain ⟨h, t, hht⟩ := List.exists_cons_of_ne_nil (splitOnColon_ne_nil cs)
    by_cases hc : c = ':'
    · subst hc
      simp only [splitOnColon, if_pos rfl, hht]
      rw [hht] at ih
      simpa [joinColon] using ih
    · simp only [splitOnColon, if_neg hc, hht]
      rw [hht] at ih
      rw [joinColon_cons_cons, ih]

/-- Go `strings.HasPrefix(x, "[")` for the left square bracket. -/
def startsWithLB : List Char → Bool
  | '[' :: _ => true
  | _ => false

/-- Go `strings.HasSuffix(x, "]")` for the right square bracket. -/
def endsWithRB (s : List Char) : Bool := s.getLast? == some ']'

/-- Go `strings.TrimPrefix(s, "[")`. -/
def trimLB : List Char → List Char
  | '[' :: rest => rest
  | s => s

/-- Go `strings.TrimSuffix(s, "]")`. -/
def trimRB (s : List Char) : List Char :=
  if s.getLast? == some ']' then s.dropLast else s

/-- Go `strings.TrimSuffix(strings.TrimPrefix(addr, "["), "]")`. -/
def trimBrackets (s : List Char) : List Char := trimRB (trimLB s)

structure AddrPort where
  addr : List Char
  p : List Char
  hasPort : Bool
  deriving DecidableEq, Repr

/-- Go `func parseAddressPort(s string) (addr, p string, hasPort bool)`,
embedded line by line: split on ':'; with fewer than 2 segments the whole
string is the address; otherwise with `n = l - 2`, if `n == 0` or
(`elems[0]` starts with '[' and `elems[n]` ends with ']') the last segment
is the port and `elems[:n+1]` rejoined is the address, else `n++` and all
segments are rejoined; finally one leading '[' and one trailing ']' are
trimmed from the address. -/
def parseAddressPort (s : List Char) : AddrPort :=
  let elems := splitOnColon s
  let l := elems.length
  if l < 2 then
    { addr := trimBrackets s, p := [], hasPort := false }
  else
    let n := l - 2
    if n == 0 || (startsWithLB (elems.headD []) && endsWithRB (elems.getD n [])) then
      { addr := trimBrackets (joinColon (elems.take (n + 1))),
        p := elems.getD (n + 1) [],
        hasPort := true }
    else
      { addr := trimBrackets (joinColon (elems.take (n + 2))),
        p := [],
        hasPort := false }

/-- Specification-side condition of claim C1: a port segment is recognized
exactly when the input splits on ':' into exactly two segments, or the
first segment starts with '[' and the second-to-last segment ends with ']'
(which presupposes at least two segments). -/
def portRecognized (s : List Char) : Prop :=
  (splitOnColon s).length = 2 ∨
    (2 ≤ (splitOnColon s).length ∧
      startsWithLB ((splitOnColon s).headD []) = true ∧
      endsWithRB ((splitOnColon s).getD ((splitOnColon s).length - 2) []) = true)

instance (s : List Char) : Decidable (portRecognized s) := by
  unfold portRecognized
  infer_instance

/-- C1: `parseAddressPort` recognizes a port segment iff the input splits
into exactly two colon-separated segments or the bracket pattern holds;
in every other case no port is recognized and the whole original string
(after the universal single-bracket-pair strip) is the address. -/
theorem parseAddressPort_hasPort_iff (s : List Char) :
    ((parseAddressPort s).hasPort = true ↔ portRecognized s) ∧
      (¬ portRecognized s →
        parseAddressPort s = { addr := trimBrackets s, p := [], hasPort := false }) := by
  unfold parseAddressPort portRecognized
  by_cases hl : (splitOnColon s).length < 2
  · simp only [if_pos hl]
    constructor
    · simp
      omega
    · intro _
      trivial
  · simp only [if_neg hl]
    push_neg at hl
    by_cases hcond : ((splitOnColon s).length - 2 == 0
        || (startsWithLB ((splitOnColon s).headD [])
            && endsWithRB ((splitOnColon s).getD ((splitOnColon s).length - 2) []))) = true
    · simp only [if_pos hcond]
      simp only [Bool.or_eq_true, Bool.and_eq_true, beq_iff_eq] at hcond
      constructor
      · simp only [true_iff]
        rcases hcond with h0 | ⟨h1, h2⟩
        · left; omega
        · right; exact ⟨hl, h1, h2⟩
      · intro hnot
        exfalso
        apply hnot
        rcases hcond with h0 | ⟨h1, h2⟩
        · left; omega
        · right; exact ⟨hl, h1, h2⟩
    · simp only [if_neg hcond]
      simp only [Bool.or_eq_true, Bool.and_eq_true, beq_iff_eq, not_or, not_and] at hcond
      obtain ⟨hn0, hpre⟩ := hcond
      constructor
      · refine iff_of_false (by simp) ?_
        intro hrec
        rcases hrec with h2 | ⟨_, h1, hsuf⟩
        · omega
        · cases hpre h1 hsuf
      · intro _
        have htake : (splitOnColon s).length - 2 + 2 = (splitOnColon s).length := by omega
        rw [htake, List.take_length, joinColon_splitOnColon]

/-- Witness for C1 at the concrete inputs "2001:db8::1:80" (bare IPv6 with a
trailing number: no port) and "[2001:db8::1]:443" (bracketed: port). -/
theorem parseAddressPort_hasPort_iff_witness :
    parseAddressPort ("2001:db8::1:80".data)
        = { addr := "2001:db8::1:80".data, p := [], hasPort := false } ∧
      portRecognized ("[2001:db8::1]:443".data) := by
  constructor
  · have h := (parseAddressPort_hasPort_iff ("2001:db8::1:80".data)).2 (by decide)
    rw [h]
    decide
  · exact (parseAddressPort_hasPort_iff ("[2001:db8::1]:443".data)).1.mp (by decide)

/-! # Port construction (network/port.go, `NewPortForTypeRange`)

`strconv.ParseUint(v, 10, 64)` succeeds exactly on nonempty all-digit
strings whose value fits in 64 bits (no sign is permitted for unsigned
parsing); on success `NewPortForTypeRange` range-checks the value and
returns either the port or the error `"invalid port %d"`.  Go's generic
`PortInput` (string or uint64) union is embedded as two entry points. -/

inductive PortErr where
  | parseError
  | rangeError (n : Nat)
  deriving DecidableEq, Repr

/-- Go `strconv.ParseUint(v, 10, 64)`: `none` models a non-nil error. -/
def parseUint64 (s : List Char) : Option Nat :=
  if s.isEmpty || !(s.all fun c => '0' ≤ c && c ≤ '9') then none
  else
    let n := s.foldl (fun a c => a * 10 + (c.toNat - 48)) 0
    if n < 2 ^ 64 then some n else none

/-- Go `NewPortForTypeRange` on a string input. -/
def NewPortForTypeRangeString (s : List Char) (ptr : Option portTypeRange) :
    Except PortErr Nat :=
  match parseUint64 s with
  | none => .error .parseError
  | some n => if IsValidForTypeRange n ptr then .ok n else .error (.rangeError n)

/-- Go `NewPortForTypeRange` on a uint64 input. -/
def NewPortForTypeRangeUint (n : Nat) (ptr : Option portTypeRange) :
    Except PortErr Nat :=
  if IsValidForTypeRange n ptr then .ok n else .error (.rangeError n)

/-- Specification-side condition of claim C5: the string is a valid
non-negative base-10 integer representable in 64 bits. -/
def ValidPortString (s : List Char) : Prop :=
  s ≠ [] ∧ (∀ c ∈ s, '0' ≤ c ∧ c ≤ '9') ∧
    s.foldl (fun a c => a * 10 + (c.toNat - 48)) 0 < 2 ^ 64

instance (s : List Char) : Decidable (ValidPortString s) := by
  unfold ValidPortString
  infer_instance

theorem isEmpty_iff_nil (s : List Char) : s.isEmpty = true ↔ s = [] := by
  cases s <;> simp

theorem parseUint64_eq_none_iff (s : List Char) :
    parseUint64 s = none ↔ ¬ ValidPortString s := by
  unfold parseUint64 ValidPortString
  split
  next hcond =>
    simp only [Bool.or_eq_true, Bool.not_eq_true', List.all_eq_false, isEmpty_iff_nil] at hcond
    simp only [true_iff]
    intro ⟨hne, hall, _⟩
    rcases hcond with h1 | ⟨c, hc, hcd⟩
    · exact hne h1
    · obtain ⟨hc0, hc9⟩ := hall c hc
      simp [hc0, hc9] at hcd
  next hcond =>
    simp only [Bool.or_eq_true, Bool.not_eq_true', not_or, isEmpty_iff_nil,
      Bool.not_eq_false] at hcond
    obtain ⟨hne, hall⟩ := hcond
    simp only [List.all_eq_true, Bool.and_eq_true, decide_eq_true_eq] at hall
    show (if List.foldl (fun a c => a * 10 + (c.toNat - 48)) 0 s < 2 ^ 64 then
        some (List.foldl (fun a c => a * 10 + (c.toNat - 48)) 0 s) else none) = none ↔ _
    split
    next hlt =>
      exact iff_of_false (by simp) (not_not.mpr ⟨hne, hall, hlt⟩)
    next hlt =>
      refine iff_of_true rfl ?_
      intro ⟨_, _, hbound⟩
      exact hlt hbound

/-- C5: string construction fails with a parse error exactly on invalid
numeric strings; a parsed or directly supplied value failing the range
check yields a range error carrying the offending value (the Go message is
"invalid port %d"); otherwise construction succeeds and the resulting
port's `Uint64` is that value.  This covers the nil range via `ptr`. -/
theorem newPortForTypeRange_spec (s : List Char) (n : Nat) (ptr : Option portTypeRange) :
    (¬ ValidPortString s → NewPortForTypeRangeString s ptr = .error .parseError) ∧
    (parseUint64 s = some n → IsValidForTypeRange n ptr = false →
      NewPortForTypeRangeString s ptr = .error (.rangeError n)) ∧
    (parseUint64 s = some n → IsValidForTypeRange n ptr = true →
      NewPortForTypeRangeString s ptr = .ok n ∧ Uint64 n = n) ∧
    (IsValidForTypeRange n ptr = false →
      NewPortForTypeRangeUint n ptr = .error (.rangeError n)) ∧
    (IsValidForTypeRange n ptr = true →
      NewPortForTypeRangeUint n ptr = .ok n ∧ Uint64 n = n) := by
  refine ⟨fun h => ?_, fun hp hv => ?_, fun hp hv => ?_, fun hv => ?_, fun hv => ?_⟩
  · rw [NewPortForTypeRangeString, (parseUint64_eq_none_iff s).mpr h]
  · rw [NewPortForTypeRangeString, hp]
    simp [hv]
  · rw [NewPortForTypeRangeString, hp]
    simp [hv, Uint64]
  · rw [NewPortForTypeRangeUint, hv]
    rfl
  · rw [NewPortForTypeRangeUint, hv]
    exact ⟨rfl, rfl⟩

/-- Witness for C5: "abc" fails parsing; "70000" parses but fails the All
range check with the offending value 70000 in the error; "80" succeeds
with value 80; the direct integer 70000 fails and 80 succeeds likewise. -/
theorem newPortForTypeRange_spec_witness :
    NewPortForTypeRangeString ("abc".data) (some All) = .error .parseError ∧
    NewPortForTypeRangeString ("70000".data) (some All) = .error (.rangeError 70000) ∧
    NewPortForTypeRangeString ("80".data) (some All) = .ok 80 ∧
    NewPortForTypeRangeUint 70000 (some All) = .error (.rangeError 70000) ∧
    NewPortForTypeRangeUint 80 (some All) = .ok 80 :=
  ⟨(newPortForTypeRange_spec ("abc".data) 0 (some All)).1 (by decide),
    (newPortForTypeRange_spec ("70000".data) 70000 (some All)).2.1 (by decide) (by decide),
    ((newPortForTypeRange_spec ("80".data) 80 (some All)).2.2.1 (by decide) (by decide)).1,
    (newPortForTypeRange_spec ("80".data) 70000 (some All)).2.2.2.1 (by decide),
    ((newPortForTypeRange_spec ("80".data) 80 (some All)).2.2.2.2 (by decide)).1⟩

/-! # Round-trip (claim C7)

`natToString` models the standard base-10 rendering of a `uint64`
(as produced by `strconv.FormatUint` / `fmt` on `p.Uint64()`): most
significant digit first, a single '0' for zero. -/

def natToString (n : Nat) : List Char :=
  if n = 0 then ['0']
  else ((Nat.digits 10 n).map (fun d => Char.ofNat (d + 48))).reverse

theorem charOfDigit_props : ∀ d : Nat, d < 10 →
    ('0' ≤ Char.ofNat (d + 48) ∧ Char.ofNat (d + 48) ≤ '9') ∧
      (Char.ofNat (d + 48)).toNat - 48 = d := by decide

theorem foldl_digits_rev (ds : List Nat) (hds : ∀ d ∈ ds, d < 10) (a : Nat) :
    ((ds.map (fun d => Char.ofNat (d + 48))).reverse).foldl
        (fun a c => a * 10 + (c.toNat - 48)) a
      = a * 10 ^ ds.length + Nat.ofDigits 10 ds := by
  induction ds generalizing a with
  | nil => simp [Nat.ofDigits]
  | cons d ds ih =>
    have hd : d < 10 := hds d (List.mem_cons_self d ds)
    have hds' : ∀ x ∈ ds, x < 10 := fun x hx => hds x (List.mem_cons_of_mem d hx)
    simp only [List.map_cons, List.reverse_cons, List.foldl_append, List.foldl_cons,
      List.foldl_nil]
    rw [ih hds', (charOfDigit_props d hd).2, Nat.ofDigits_cons]
    simp only [List.length_cons, Nat.cast_id]
    ring

theorem parseUint64_eq_some (s : List Char) (hne : s ≠ [])
    (hall : (s.all fun c => '0' ≤ c && c ≤ '9') = true)
    (hlt : s.foldl (fun a c => a * 10 + (c.toNat - 48)) 0 < 2 ^ 64) :
    parseUint64 s = some (s.foldl (fun a c => a * 10 + (c.toNat - 48)) 0) := by
  unfold parseUint64
  have hemp : s.isEmpty = false := by
    rw [Bool.eq_false_iff, Ne, isEmpty_iff_nil]
    exact hne
  rw [hemp, hall]
  simp
  simpa using hlt

theorem parseUint64_natToString (n : Nat) (h : n < 2 ^ 64) :
    parseUint64 (natToString n) = some n := by
  by_cases h0 : n = 0
  · subst h0
    decide
  · unfold natToString
    rw [if_neg h0]
    have hds : ∀ d ∈ Nat.digits 10 n, d < 10 :=
      fun d hd => Nat.digits_lt_base (by norm_num) hd
    have hne : ((Nat.digits 10 n).map (fun d => Char.ofNat (d + 48))).reverse ≠ [] := by
      simp [Nat.digits_ne_nil_iff_ne_zero.mpr h0]
    have hfold : (((Nat.digits 10 n).map (fun d => Char.ofNat (d + 48))).reverse).foldl
        (fun a c => a * 10 + (c.toNat - 48)) 0 = n := by
      rw [foldl_digits_rev _ hds 0]
      simp [Nat.ofDigits_digits]
    have hall : ((((Nat.digits 10 n).map (fun d => Char.ofNat (d + 48))).reverse).all
        (fun c => '0' ≤ c && c ≤ '9')) = true := by
      simp only [List.all_eq_true, List.mem_reverse, List.mem_map]
      rintro c ⟨d, hd, rfl⟩
      have hc := (charOfDigit_props d (hds d hd)).1
      simp [hc.1, hc.2]
    rw [parseUint64_eq_some _ hne hall (by rw [hfold]; exact h), hfold]

/-- C7: for every valid port value p (p ≤ 65535), constructing a port from
the base-10 rendering of `Uint64 p` with the All range succeeds and the
resulting port's `Uint64` equals p. -/
theorem newPort_roundTrip (p : Nat) (h : p ≤ 65535) :
    NewPortForTypeRangeString (natToString (Uint64 p)) (some All) = .ok p ∧
      Uint64 p = p := by
  have hp : parseUint64 (natToString (Uint64 p)) = some p :=
    parseUint64_natToString p (lt_of_le_of_lt h (by norm_num))
  have hv : IsValidForTypeRange p (some All) = true := by
    simp [IsValidForTypeRange, All, rangeOf, ranges, MinSystem, MaxDynamic]
    omega
  rw [NewPortForTypeRangeString, hp]
  simp [hv, Uint64]

/-- Witness for C7 at the concrete port value 8080. -/
theorem newPort_roundTrip_witness :
    NewPortForTypeRangeString (natToString (Uint64 8080)) (some All) = .ok 8080 :=
  (newPort_roundTrip 8080 (by decide)).1

/-! # ParseAddressForPortTypeRange (network/address.go)

Go returns `(address string, p Port, err error)` with named return values:
on any error `address` keeps its zero value `""` and `p` the nil
interface.  The nil Port interface is modelled as `none : Option Nat`.
`net.ParseIP` is external library code; the function is parameterized by
an arbitrary IP-literal recognizer `parseIP` (true models a non-nil
`net.IP` result), so the theorems hold for every such recognizer. -/

inductive AddrErr where
  | invalidAddress (s : List Char)
  | portError (e : PortErr)
  deriving DecidableEq, Repr

structure ParseAddressResult where
  address : List Char
  p : Option Nat
  err : Option AddrErr
  deriving DecidableEq, Repr

def ParseAddressForPortTypeRange (parseIP : List Char → Bool) (s : List Char)
    (ptr : Option portTypeRange) : ParseAddressResult :=
  let r := parseAddressPort s
  if !parseIP r.addr then
    { address := [], p := none, err := some (.invalidAddress r.addr) }
  else if r.hasPort then
    match NewPortForTypeRangeString r.p ptr with
    | .error e => { address := [], p := none, err := some (.portError e) }
    | .ok n => { address := r.addr, p := some n, err := none }
  else
    { address := r.addr, p := none, err := none }

/-- C6: whenever `ParseAddressForPortTypeRange` returns an error — address
validation failure or port construction failure — the returned address is
empty and no Port is returned. -/
theorem parseAddress_no_partial_results (parseIP : List Char → Bool) (s : List Char)
    (ptr : Option portTypeRange) (e : AddrErr)
    (h : (ParseAddressForPortTypeRange parseIP s ptr).err = some e) :
    (ParseAddressForPortTypeRange parseIP s ptr).address = [] ∧
      (ParseAddressForPortTypeRange parseIP s ptr).p = none := by
  simp only [ParseAddressForPortTypeRange] at h ⊢
  split at h
  next hip =>
    rw [if_pos hip]
    exact ⟨rfl, rfl⟩
  next hip =>
    rw [if_neg hip]
    split at h
    next hp =>
      rw [if_pos hp]
      split at h
      next e' heq =>
        exact ⟨rfl, rfl⟩
      next n heq =>
        simp at h
    next hp =>
      simp at h

/-- Witness for C6: an always-failing IP recognizer on "1.2.3.4" yields the
invalid-address error with empty address and no port. -/
theorem parseAddress_no_partial_results_witness :
    (ParseAddressForPortTypeRange (fun _ => false) ("1.2.3.4".data) (some All)).address = [] ∧
      (ParseAddressForPortTypeRange (fun _ => false) ("1.2.3.4".data) (some All)).p = none :=
  parseAddress_no_partial_results (fun _ => false) ("1.2.3.4".data) (some All)
    (.invalidAddress ("1.2.3.4".data)) (by decide)

/-- C9: on success with no recognized port segment, the returned optional
port channel is `none` (Go: the nil Port interface), and the sentinel
"no port" value `Invalid` that this channel stands for (spec §3/§9)
satisfies `IsSet = false`, so the no-port channel and `IsSet` agree. -/
theorem parseAddress_noPort_isSet_agree (parseIP : List Char → Bool) (s : List Char)
    (ptr : Option portTypeRange)
    (hok : (ParseAddressForPortTypeRange parseIP s ptr).err = none)
    (hnp : (parseAddressPort s).hasPort = false) :
    (ParseAddressForPortTypeRange parseIP s ptr).p = none ∧
      IsSet (((ParseAddressForPortTypeRange parseIP s ptr).p).getD Invalid) = false := by
  simp only [ParseAddressForPortTypeRange] at hok ⊢
  split at hok
  next hip =>
    simp at hok
  next hip =>
    rw [if_neg hip, hnp]
    rw [if_neg (by decide : ¬false = true)]
    exact ⟨rfl, rfl⟩

/-- Witness for C9: an always-true IP recognizer on the portless
"2001:db8::1" returns no port, and the sentinel agrees with IsSet. -/
theorem parseAddress_noPort_isSet_agree_witness :
    (ParseAddressForPortTypeRange (fun _ => true) ("2001:db8::1".data) (some All)).p = none ∧
      IsSet (((ParseAddressForPortTypeRange (fun _ => true)
        ("2001:db8::1".data) (some All)).p).getD Invalid) = false :=
  parseAddress_noPort_isSet_agree (fun _ => true) ("2001:db8::1".data) (some All)
    (by decide) (by decide)

/-! # Retry configuration (config/client.go)

Durations (`time.Duration`, int64 nanoseconds) are modelled as `Int`.
The three distinct backoff functions appearing in the `policies` map
(`rhttp.DefaultBackoff`, `rhttp.LinearJitterBackoff`, the package's own
`ConstantBackoff`) are external code and are modelled as an enumeration of
which function is selected.  `strings.ToLower` is modelled on the ASCII
range (Unicode lowercasing coincides with ASCII lowercasing on all policy
names and their case variants). -/

inductive Backoff where
  | defaultBackoff
  | linearJitterBackoff
  | constantBackoff
  deriving DecidableEq, Repr

def toLowerChar (c : Char) : Char :=
  if 65 ≤ c.toNat ∧ c.toNat ≤ 90 then Char.ofNat (c.toNat + 32) else c

def toLower (s : List Char) : List Char := s.map toLowerChar

/-- The `policies` map of config/client.go: keys are the five policy-name
constants, `none` models a missing key (Go returns the zero value nil). -/
def policies (s : List Char) : Option Backoff :=
  if s = [] then some .defaultBackoff
  else if s = "default".data then some .defaultBackoff
  else if s = "exponential".data then some .defaultBackoff
  else if s = "jitter".data then some .linearJitterBackoff
  else if s = "const".data then some .constantBackoff
  else none

/-- The lookup performed by `Validate`: `policies[strings.ToLower(rc.Policy)]`. -/
def policyLookup (s : List Char) : Option Backoff := policies (toLower s)

structure RetryConfig where
  WaitMin : Int
  WaitMax : Int
  MaxAttempts : Int
  Policy : List Char
  deriving DecidableEq, Repr

inductive ConfigErr where
  | invalidDurations (d1 d2 : Int)
  | nonPositive (n : Int)
  | invalidPolicy (s : List Char)
  deriving DecidableEq, Repr

/-- Go `func validDurations(d1, d2 time.Duration, equalAllowed bool) error`. -/
def validDurations (d1 d2 : Int) (equalAllowed : Bool) : Option ConfigErr :=
  if (if equalAllowed then d1 ≤ d2 else d1 < d2) then none
  else some (.invalidDurations d1 d2)

/-- Go `func validPositive(n int) error`. -/
def validPositive (n : Int) : Option ConfigErr :=
  if n ≤ 0 then some (.nonPositive n) else none

/-- Go `func (rc *RetryConfig) Validate() error` for a non-nil receiver,
embedded exactly as written — note the source really passes `rc.WaitMin`
twice to the second `validDurations` call, so `WaitMax` is never read. -/
def Validate (rc : RetryConfig) : Option ConfigErr :=
  match validDurations 0 rc.WaitMin false with
  | some e => some e
  | none =>
    match validDurations rc.WaitMin rc.WaitMin true with
    | some e => some e
    | none =>
      match validPositive rc.MaxAttempts with
      | some e => some e
      | none =>
        match policyLookup rc.Policy with
        | none => some (.invalidPolicy rc.Policy)
        | some _ => none

/-- A configuration violating the spec's `waitMin ∈ (0, waitMax]` bound:
WaitMin = 2ns, WaitMax = 1ns. -/
def waitMaxBelowMinConfig : RetryConfig :=
  { WaitMin := 2, WaitMax := 1, MaxAttempts := 1, Policy := [] }

/-- C3 (code bug): `Validate` accepts a configuration whose WaitMin
exceeds its WaitMax, because the source compares WaitMin with itself
instead of with WaitMax; the spec's `waitMin ∈ (0, waitMax]` is the
evident intent. -/
theorem validate_accepts_waitMax_below_waitMin :
    Validate waitMaxBelowMinConfig = none ∧
      waitMaxBelowMinConfig.WaitMax < waitMaxBelowMinConfig.WaitMin := by
  decide

theorem toNat_ofNat_valid (n : Nat) (h : n.isValidChar) : (Char.ofNat n).toNat = n := by
  simp [Char.ofNat, h, Char.ofNatAux, Char.toNat, UInt32.toNat, BitVec.toNat_ofNatLt]

theorem toLowerChar_idem (c : Char) : toLowerChar (toLowerChar c) = toLowerChar c := by
  have hlc : ∀ d : Char, toLowerChar d
      = if 65 ≤ d.toNat ∧ d.toNat ≤ 90 then Char.ofNat (d.toNat + 32) else d :=
    fun _ => rfl
  by_cases h : 65 ≤ c.toNat ∧ c.toNat ≤ 90
  · rw [hlc c, if_pos h, hlc (Char.ofNat (c.toNat + 32))]
    have ht : (Char.ofNat (c.toNat + 32)).toNat = c.toNat + 32 :=
      toNat_ofNat_valid _ (Or.inl (by omega))
    rw [ht, if_neg (by omega)]
  · rw [hlc c, if_neg h, hlc c, if_neg h]

theorem toLower_idem (s : List Char) : toLower (toLower s) = toLower s := by
  unfold toLower
  rw [List.map_map]
  exact List.map_congr_left fun c _ => toLowerChar_idem c

/-- C8: the policy lookup used by `Validate` is case-insensitive — any
spelling resolves to the same backoff function as its lowercase form —
and the empty policy name resolves to the same default backoff as
"default". -/
theorem policyLookup_case_insensitive (s : List Char) :
    policyLookup s = policyLookup (toLower s) ∧
      policyLookup [] = policyLookup ("default".data) ∧
      policyLookup [] = some Backoff.defaultBackoff := by
  refine ⟨?_, by decide, by decide⟩
  unfold policyLookup
  rw [toLower_idem]

/-- C10: the "exponential" policy name selects exactly the same backoff
function as "default" and the empty name — all three `policies` entries
are the library's default backoff. -/
theorem exponentialPolicy_eq_defaultPolicy :
    policyLookup ("exponential".data) = policyLookup ("default".data) ∧
      policyLookup ("exponential".data) = policyLookup [] ∧
      policies ("exponential".data) = some Backoff.defaultBackoff ∧
      policies ("default".data) = some Backoff.defaultBackoff ∧
      policies [] = some Backoff.defaultBackoff := by
  decide

end NetUtils
